import Mathlib

/-!
Verification development for the record entity of amiller68/dumb-store
(src/types/object.rs): the Object record, its canonical IPLD encoding
(Blockable::to_ipld), its validating decoder (Blockable::from_ipld), the
update mutator, and the error taxonomy ObjectIpldError.

Strings are embedded as lists of characters.  Timestamps
(time::OffsetDateTime) are embedded by their nanosecond unix timestamp as
an integer, with the representable range of the time crate made explicit;
the wall clock is an explicit parameter of the operations that read it.
The external collaborators (crate::backend::Cid, serde_json::Value,
libipld::Ipld) are modelled from the spec's description of them; JSON
numbers are restricted to integers (floating point is outside the model)
and unicode surrogate-pair escapes are not modelled.
-/

namespace DumbStore

/-- Modelled from the spec: the content identifier type crate::backend::Cid is
not among the provided sources.  The spec requires only an atomic, comparable,
cloneable value with a well-defined default, usable as a link node. -/
structure Cid where
  cid : Nat
deriving DecidableEq

/-- Modelled from the spec: the default (empty) content identifier. -/
def Cid.default : Cid := ⟨0⟩

/-- Modelled from the spec: serde_json::Value, the structured metadata value, a
JSON-shaped tree of null, booleans, numbers, strings, arrays and objects.
Numbers are restricted to integers in this model. -/
inductive Value : Type where
  | null : Value
  | bool (b : Bool) : Value
  | num (n : Int) : Value
  | str (s : List Char) : Value
  | arr (elems : List Value) : Value
  | obj (members : List (List Char × Value)) : Value

instance : Inhabited Value := ⟨Value.null⟩

/-- Decimal digit to character. -/
def digitChar : Nat → Char
  | 0 => '0' | 1 => '1' | 2 => '2' | 3 => '3' | 4 => '4'
  | 5 => '5' | 6 => '6' | 7 => '7' | 8 => '8' | _ => '9'

/-- Hexadecimal digit to character, lowercase as serde_json emits it. -/
def hexDigitChar : Nat → Char
  | 0 => '0' | 1 => '1' | 2 => '2' | 3 => '3' | 4 => '4'
  | 5 => '5' | 6 => '6' | 7 => '7' | 8 => '8' | 9 => '9'
  | 10 => 'a' | 11 => 'b' | 12 => 'c' | 13 => 'd' | 14 => 'e' | _ => 'f'

/-- Decimal digits of a natural number, most significant first. -/
def natDigits (n : Nat) : List Char :=
  if _h : n < 10 then [digitChar n]
  else natDigits (n / 10) ++ [digitChar (n % 10)]
decreasing_by exact Nat.div_lt_self (by omega) (by omega)

/-- Decimal rendering of an integer, as serde_json renders integral numbers. -/
def intChars (n : Int) : List Char :=
  if n < 0 then '-' :: natDigits n.natAbs else natDigits n.toNat

/-- Escape of one character inside a JSON string literal, following
serde_json: quote, backslash and the named control characters get two-character
escapes, remaining control characters get a lowercase unicode escape, and every
other character is emitted verbatim. -/
def escapeChar (c : Char) : List Char :=
  if c = '\x22' then ['\x5c', '\x22']
  else if c = '\x5c' then ['\x5c', '\x5c']
  else if c = '\x08' then ['\x5c', 'b']
  else if c = '\x09' then ['\x5c', 't']
  else if c = '\x0a' then ['\x5c', 'n']
  else if c = '\x0c' then ['\x5c', 'f']
  else if c = '\x0d' then ['\x5c', 'r']
  else if c.toNat < 32 then
    ['\x5c', 'u', '0', '0', hexDigitChar (c.toNat / 16), hexDigitChar (c.toNat % 16)]
  else [c]

/-- Escape of a whole string body. -/
def escapeList : List Char → List Char
  | [] => []
  | c :: cs => escapeChar c ++ escapeList cs

mutual

/-- Modelled from the spec: serde_json compact serialization of a Value, the
canonical string form the encoder embeds in the wire map. -/
def printValue : Value → List Char
  | Value.null => ['n', 'u', 'l', 'l']
  | Value.bool true => ['t', 'r', 'u', 'e']
  | Value.bool false => ['f', 'a', 'l', 's', 'e']
  | Value.num n => intChars n
  | Value.str s => '\x22' :: escapeList s ++ ['\x22']
  | Value.arr [] => ['[', ']']
  | Value.arr (v :: vs) => '[' :: printValue v ++ printElems vs ++ [']']
  | Value.obj [] => ['\x7b', '\x7d']
  | Value.obj (m :: ms) => '\x7b' :: printMember m ++ printMembers ms ++ ['\x7d']

/-- Remaining array elements, each preceded by a comma. -/
def printElems : List Value → List Char
  | [] => []
  | v :: vs => ',' :: printValue v ++ printElems vs

/-- One object member: quoted key, colon, value. -/
def printMember : List Char × Value → List Char
  | (k, v) => '\x22' :: escapeList k ++ '\x22' :: ':' :: printValue v

/-- Remaining object members, each preceded by a comma. -/
def printMembers : List (List Char × Value) → List Char
  | [] => []
  | m :: ms => ',' :: printMember m ++ printMembers ms

end

/-- JSON insignificant whitespace. -/
def isWsChar (c : Char) : Bool :=
  c = ' ' || c = '\x09' || c = '\x0a' || c = '\x0d'

/-- Drop leading insignificant whitespace. -/
def skipWs : List Char → List Char
  | [] => []
  | c :: cs => if isWsChar c then skipWs cs else c :: cs

/-- Decimal digit test. -/
def isDigitChar (c : Char) : Bool :=
  48 ≤ c.toNat && c.toNat ≤ 57

/-- Value of a decimal digit character. -/
def digitVal (c : Char) : Nat := c.toNat - 48

/-- Value of a list of decimal digit characters, most significant first. -/
def digitsToNat (ds : List Char) : Nat :=
  ds.foldl (fun acc c => acc * 10 + digitVal c) 0

/-- Value of a hexadecimal digit character, either case. -/
def hexVal (c : Char) : Option Nat :=
  if 48 ≤ c.toNat ∧ c.toNat ≤ 57 then some (c.toNat - 48)
  else if 97 ≤ c.toNat ∧ c.toNat ≤ 102 then some (c.toNat - 87)
  else if 65 ≤ c.toNat ∧ c.toNat ≤ 70 then some (c.toNat - 55)
  else none

/-- Code point of four hexadecimal digit values. -/
def hex4 (a b c d : Nat) : Nat :=
  ((a * 16 + b) * 16 + c) * 16 + d

/-- Parse the body of a JSON string after its opening quote, up to and
including the closing quote, unescaping as serde_json does (surrogate pairs
are not modelled).  Returns the decoded characters and the rest of the
input. -/
def parseStringBody : List Char → Option (List Char × List Char)
  | [] => none
  | c :: r =>
    if c = '\x22' then some ([], r)
    else if c = '\x5c' then
      match r with
      | [] => none
      | e :: r2 =>
        if e = '\x22' then (parseStringBody r2).map fun p => ('\x22' :: p.1, p.2)
        else if e = '\x5c' then (parseStringBody r2).map fun p => ('\x5c' :: p.1, p.2)
        else if e = '/' then (parseStringBody r2).map fun p => ('/' :: p.1, p.2)
        else if e = 'b' then (parseStringBody r2).map fun p => ('\x08' :: p.1, p.2)
        else if e = 'f' then (parseStringBody r2).map fun p => ('\x0c' :: p.1, p.2)
        else if e = 'n' then (parseStringBody r2).map fun p => ('\x0a' :: p.1, p.2)
        else if e = 'r' then (parseStringBody r2).map fun p => ('\x0d' :: p.1, p.2)
        else if e = 't' then (parseStringBody r2).map fun p => ('\x09' :: p.1, p.2)
        else if e = 'u' then
          match r2 with
          | h1 :: h2 :: h3 :: h4 :: r3 =>
            match hexVal h1, hexVal h2, hexVal h3, hexVal h4 with
            | some a, some b, some c2, some d =>
              (parseStringBody r3).map fun p =>
                (Char.ofNat (hex4 a b c2 d) :: p.1, p.2)
            | _, _, _, _ => none
          | _ => none
        else none
    else (parseStringBody r).map fun p => (c :: p.1, p.2)

/-- Parse a nonempty run of decimal digits. -/
def parseDigits (s : List Char) : Option (Nat × List Char) :=
  let ds := s.takeWhile isDigitChar
  if ds = [] then none else some (digitsToNat ds, s.dropWhile isDigitChar)

/-- Parse a JSON number (integers only in this model). -/
def parseNumber (s : List Char) : Option (Int × List Char) :=
  if s.head? = some '-' then (parseDigits s.tail).map fun p => (-(p.1 : Int), p.2)
  else (parseDigits s).map fun p => ((p.1 : Int), p.2)

mutual

/-- Modelled from the spec: JSON parsing of a Value as serde_json accepts it,
with insignificant whitespace allowed around tokens.  Fuel bounds the nesting
recursion. -/
def parseValue : Nat → List Char → Option (Value × List Char)
  | 0, _ => none
  | fuel + 1, s0 =>
    match skipWs s0 with
    | [] => none
    | c :: r =>
      if c = 'n' then
        if r.take 3 = ['u', 'l', 'l'] then some (Value.null, r.drop 3) else none
      else if c = 't' then
        if r.take 3 = ['r', 'u', 'e'] then some (Value.bool true, r.drop 3) else none
      else if c = 'f' then
        if r.take 4 = ['a', 'l', 's', 'e'] then some (Value.bool false, r.drop 4) else none
      else if c = '\x22' then
        (parseStringBody r).map fun p => (Value.str p.1, p.2)
      else if c = '[' then
        let r1 := skipWs r
        if r1.head? = some ']' then some (Value.arr [], r1.tail)
        else (parseElems fuel r1).map fun p => (Value.arr p.1, p.2)
      else if c = '\x7b' then
        let r1 := skipWs r
        if r1.head? = some '\x7d' then some (Value.obj [], r1.tail)
        else (parseMembers fuel r1).map fun p => (Value.obj p.1, p.2)
      else if isDigitChar c || c = '-' then
        (parseNumber (c :: r)).map fun p => (Value.num p.1, p.2)
      else none

/-- Parse the elements of a nonempty JSON array after its opening bracket,
up to and including the closing bracket. -/
def parseElems : Nat → List Char → Option (List Value × List Char)
  | 0, _ => none
  | fuel + 1, s =>
    match parseValue fuel s with
    | some (v, r) =>
      let r1 := skipWs r
      if r1.head? = some ',' then
        (parseElems fuel r1.tail).map fun p => (v :: p.1, p.2)
      else if r1.head? = some ']' then some ([v], r1.tail)
      else none
    | none => none

/-- Parse the members of a nonempty JSON object after its opening brace,
up to and including the closing brace. -/
def parseMembers : Nat → List Char → Option (List (List Char × Value) × List Char)
  | 0, _ => none
  | fuel + 1, s =>
    match skipWs s with
    | [] => none
    | c :: r =>
      if c = '\x22' then
        match parseStringBody r with
        | some (k, r2) =>
          let r3 := skipWs r2
          if r3.head? = some ':' then
            match parseValue fuel r3.tail with
            | some (v, r4) =>
              let r5 := skipWs r4
              if r5.head? = some ',' then
                (parseMembers fuel r5.tail).map fun p => ((k, v) :: p.1, p.2)
              else if r5.head? = some '\x7d' then some ([(k, v)], r5.tail)
              else none
            | none => none
          else none
        | none => none
      else none

end

/-- Modelled from the spec: serde_json::from_str, the parse of a complete
metadata string.  The whole input must be consumed up to trailing
whitespace. -/
def from_str (s : List Char) : Option Value :=
  match parseValue (s.length + 1) s with
  | some (v, rest) => if skipWs rest = [] then some v else none
  | none => none

mutual

/-- Fuel sufficient for parseValue to parse the printed form of a value. -/
def sizeV : Value → Nat
  | Value.null => 1
  | Value.bool _ => 1
  | Value.num _ => 1
  | Value.str _ => 1
  | Value.arr [] => 1
  | Value.arr (v :: vs) => 1 + sizeElems v vs
  | Value.obj [] => 1
  | Value.obj (m :: ms) => 1 + sizeMembers m ms
termination_by v => sizeOf v
decreasing_by all_goals (simp_wf; try omega)

/-- Fuel sufficient for parseElems on the printed elements of a nonempty
array. -/
def sizeElems : Value → List Value → Nat
  | v, [] => 1 + sizeV v
  | v, v2 :: vs => 1 + sizeV v + sizeElems v2 vs
termination_by v vs => sizeOf v + sizeOf vs
decreasing_by all_goals (simp_wf; try omega)

/-- Fuel sufficient for parseMembers on the printed members of a nonempty
object. -/
def sizeMembers : List Char × Value → List (List Char × Value) → Nat
  | (_, v), [] => 1 + sizeV v
  | (_, v), m2 :: ms => 1 + sizeV v + sizeMembers m2 ms
termination_by m ms => sizeOf m + sizeOf ms
decreasing_by all_goals (simp_wf; try omega)

end

/-- Modelled from the spec: the wire value type libipld::Ipld, a
self-describing node that is null, boolean, integer, string, bytes, list,
map or content-identifier link.  Floats are outside the model. -/
inductive Ipld : Type where
  | null : Ipld
  | bool (b : Bool) : Ipld
  | integer (i : Int) : Ipld
  | string (s : List Char) : Ipld
  | bytes (bs : List Nat) : Ipld
  | list (l : List Ipld) : Ipld
  | map (m : List (List Char × Ipld)) : Ipld
  | link (c : Cid) : Ipld

/-- Lookup in the wire map, modelling BTreeMap::get. -/
def mapGet (m : List (List Char × Ipld)) (k : List Char) : Option Ipld :=
  match m with
  | [] => none
  | (k1, v) :: t => if k1 = k then some v else mapGet t k

/-- Earliest nanosecond unix timestamp representable by time::OffsetDateTime,
namely -9999-01-01T00:00:00Z. -/
def odtMinNanos : Int := -377705116800000000000

/-- Latest nanosecond unix timestamp representable by time::OffsetDateTime,
namely 9999-12-31T23:59:59.999999999Z. -/
def odtMaxNanos : Int := 253402300799999999999

/-- Modelled from the spec: OffsetDateTime::from_unix_timestamp_nanos of the
time crate, which accepts exactly the nanosecond timestamps of representable
datetimes and rejects the rest with a component-range error. -/
def fromUnixTimestampNanos (n : Int) : Option Int :=
  if odtMinNanos ≤ n ∧ n ≤ odtMaxNanos then some n else none

/-- The record entity of src/types/object.rs.  Timestamps are embedded as
their nanosecond unix timestamps. -/
structure Object where
  created_at : Int
  updated_at : Int
  data : Cid
  metadata : Value

/-- Error taxonomy of the decoder, from src/types/object.rs.  The payloads of
InvalidDateTime and SerdeJson (the underlying library errors) are not
modelled. -/
inductive ObjectIpldError : Type where
  | InvalidDateTime : ObjectIpldError
  | MissingMapMember (key : List Char) : ObjectIpldError
  | SerdeJson : ObjectIpldError
  | NotMap : ObjectIpldError
deriving DecidableEq

/-- Wire label of the created_at field. -/
def OBJECT_CREATED_AT_LABEL : List Char := "created_at".toList

/-- Wire label of the updated_at field. -/
def OBJECT_UPDATED_AT_LABEL : List Char := "updated_at".toList

/-- Wire label of the data field. -/
def OBJECT_DATA_LABEL : List Char := "data".toList

/-- Wire label of the metadata field. -/
def OBJECT_METADATA_LABEL : List Char := "metadata".toList

/-- Blockable::to_ipld from src/types/object.rs: the canonical wire map, a
BTreeMap holding the four labelled entries; a BTreeMap iterates its keys in
sorted order, which for these labels is created_at, data, metadata,
updated_at. -/
def Object.to_ipld (self : Object) : Ipld :=
  Ipld.map
    [(OBJECT_CREATED_AT_LABEL, Ipld.integer self.created_at),
     (OBJECT_DATA_LABEL, Ipld.link self.data),
     (OBJECT_METADATA_LABEL, Ipld.string (printValue self.metadata)),
     (OBJECT_UPDATED_AT_LABEL, Ipld.integer self.updated_at)]

/-- Blockable::from_ipld from src/types/object.rs, with the early returns of
the source rendered as nested matches in source order: map shape, then for
each field in turn its lookup and, for the timestamps, the range conversion,
and last the metadata parse. -/
def Object.from_ipld (ipld : Ipld) : Except ObjectIpldError Object :=
  match ipld with
  | Ipld.map m =>
    match mapGet m OBJECT_CREATED_AT_LABEL with
    | some (Ipld.integer created_at_int) =>
      match fromUnixTimestampNanos created_at_int with
      | some created_at =>
        match mapGet m OBJECT_UPDATED_AT_LABEL with
        | some (Ipld.integer updated_at_int) =>
          match fromUnixTimestampNanos updated_at_int with
          | some updated_at =>
            match mapGet m OBJECT_DATA_LABEL with
            | some (Ipld.link data) =>
              match mapGet m OBJECT_METADATA_LABEL with
              | some (Ipld.string metadata_string) =>
                match from_str metadata_string with
                | some metadata => Except.ok ⟨created_at, updated_at, data, metadata⟩
                | none => Except.error ObjectIpldError.SerdeJson
              | _ => Except.error (ObjectIpldError.MissingMapMember OBJECT_METADATA_LABEL)
            | _ => Except.error (ObjectIpldError.MissingMapMember OBJECT_DATA_LABEL)
          | none => Except.error ObjectIpldError.InvalidDateTime
        | _ => Except.error (ObjectIpldError.MissingMapMember OBJECT_UPDATED_AT_LABEL)
      | none => Except.error ObjectIpldError.InvalidDateTime
    | _ => Except.error (ObjectIpldError.MissingMapMember OBJECT_CREATED_AT_LABEL)
  | _ => Except.error ObjectIpldError.NotMap

/-- Default for Object from src/types/object.rs: both timestamps read the
wall clock (two separate reads, passed here as the explicit arguments t1 and
t2), the data field is the default content identifier and the metadata is
JSON null. -/
def Object.default (t1 t2 : Int) : Object :=
  ⟨t1, t2, Cid.default, Value.null⟩

/-- Object::update from src/types/object.rs: unconditionally refresh
updated_at from the wall clock (passed here as the explicit argument now),
then replace data and metadata only when the corresponding option is
present. -/
def Object.update (self : Object) (now : Int) (data : Option Cid) (metadata : Option Value) : Object :=
  let self1 : Object := { self with updated_at := now }
  let self2 : Object :=
    match data with
    | some cid => { self1 with data := cid }
    | none => self1
  match metadata with
  | some value => { self2 with metadata := value }
  | none => self2

/-- Validity of a record: both timestamps are representable datetimes, the
invariant the time crate maintains for every OffsetDateTime value. -/
def Object.valid (o : Object) : Prop :=
  odtMinNanos ≤ o.created_at ∧ o.created_at ≤ odtMaxNanos ∧
  odtMinNanos ≤ o.updated_at ∧ o.updated_at ≤ odtMaxNanos

/-- Per-field timestamp check written from the amended specification prose:
the entry must be present as a wire integer, and that integer must at once
convert to a representable timestamp. -/
def specCheckTimestamp (m : List (List Char × Ipld)) (label : List Char) :
    Except ObjectIpldError Int :=
  match mapGet m label with
  | some (Ipld.integer i) =>
    match fromUnixTimestampNanos i with
    | some t => Except.ok t
    | none => Except.error ObjectIpldError.InvalidDateTime
  | _ => Except.error (ObjectIpldError.MissingMapMember label)

/-- Per-field link check written from the amended specification prose. -/
def specCheckLink (m : List (List Char × Ipld)) (label : List Char) :
    Except ObjectIpldError Cid :=
  match mapGet m label with
  | some (Ipld.link c) => Except.ok c
  | _ => Except.error (ObjectIpldError.MissingMapMember label)

/-- Per-field string check written from the amended specification prose. -/
def specCheckString (m : List (List Char × Ipld)) (label : List Char) :
    Except ObjectIpldError (List Char) :=
  match mapGet m label with
  | some (Ipld.string s) => Except.ok s
  | _ => Except.error (ObjectIpldError.MissingMapMember label)

/-- Metadata parse step written from the amended specification prose. -/
def specParseMetadata (s : List Char) : Except ObjectIpldError Value :=
  match from_str s with
  | some v => Except.ok v
  | none => Except.error ObjectIpldError.SerdeJson

/-- Decoder pipeline written from the amended specification prose: the input
must be a map, then the fields are validated one after the other in the order
created_at, updated_at, data, metadata, each field fully (presence, wire type
and, for a timestamp, range; for the metadata, the parse) before the next
field is looked at; the first violation wins. -/
def decodeOrderSpec (ipld : Ipld) : Except ObjectIpldError Object :=
  match ipld with
  | Ipld.map m =>
    (specCheckTimestamp m OBJECT_CREATED_AT_LABEL).bind fun c =>
      (specCheckTimestamp m OBJECT_UPDATED_AT_LABEL).bind fun u =>
        (specCheckLink m OBJECT_DATA_LABEL).bind fun d =>
          (specCheckString m OBJECT_METADATA_LABEL).bind fun s =>
            (specParseMetadata s).map fun v => ⟨c, u, d, v⟩
  | _ => Except.error ObjectIpldError.NotMap

/-! Theorems about the update operation. -/

/-- C6: for every Record with data A and metadata M, update(None, Some(M2))
leaves data unchanged and sets metadata to M2; update(Some(B), None) sets
data to B and leaves metadata unchanged; in both cases created_at is
unchanged and updated_at is set to the current wall-clock reading. -/
theorem claim6_selective_update (o : Object) (now : Int) (B : Cid) (M2 : Value) :
    ((o.update now none (some M2)).data = o.data ∧
     (o.update now none (some M2)).metadata = M2 ∧
     (o.update now none (some M2)).created_at = o.created_at ∧
     (o.update now none (some M2)).updated_at = now) ∧
    ((o.update now (some B) none).data = B ∧
     (o.update now (some B) none).metadata = o.metadata ∧
     (o.update now (some B) none).created_at = o.created_at ∧
     (o.update now (some B) none).updated_at = now) := by
  simp [Object.update]

/-- C9: after update the new updated_at is at least the old one, provided the
wall clock has not gone backwards since the old updated_at was taken, and
created_at is unchanged by the call. -/
theorem claim9_update_monotonic (o : Object) (now : Int) (d : Option Cid)
    (mv : Option Value) (hclock : o.updated_at ≤ now) :
    o.updated_at ≤ (o.update now d mv).updated_at ∧
    (o.update now d mv).created_at = o.created_at := by
  cases d <;> cases mv <;> simp [Object.update] <;> exact hclock

/-- C9 witness: the monotonicity theorem instantiated at a concrete record
and clock reading. -/
theorem claim9_update_monotonic_witness :
    (Object.mk 3 4 Cid.default Value.null).updated_at ≤ 9 ∧
    ((Object.mk 3 4 Cid.default Value.null).updated_at ≤
      ((Object.mk 3 4 Cid.default Value.null).update 9 none (some (Value.bool true))).updated_at ∧
     ((Object.mk 3 4 Cid.default Value.null).update 9 none (some (Value.bool true))).created_at =
      (Object.mk 3 4 Cid.default Value.null).created_at) :=
  ⟨by norm_num, claim9_update_monotonic (Object.mk 3 4 Cid.default Value.null) 9 none
    (some (Value.bool true)) (by norm_num)⟩

/-- C3 counterexample: a well-shaped wire map whose updated_at integer is
smaller than its created_at integer decodes successfully, so a Record
hydrated by decode need not satisfy updated_at at least created_at. -/
theorem claim3_counterexample :
    Object.from_ipld (Ipld.map
      [(OBJECT_CREATED_AT_LABEL, Ipld.integer 1),
       (OBJECT_UPDATED_AT_LABEL, Ipld.integer 0),
       (OBJECT_DATA_LABEL, Ipld.link Cid.default),
       (OBJECT_METADATA_LABEL, Ipld.string "null".toList)]) =
      Except.ok (Object.mk 1 0 Cid.default Value.null) ∧
    (Object.mk 1 0 Cid.default Value.null).updated_at <
      (Object.mk 1 0 Cid.default Value.null).created_at :=
  ⟨rfl, by norm_num⟩

/-- C3 amended: a Record built by default() has created_at equal to
updated_at provided both wall-clock reads in default() return the same
instant; update never changes created_at and leaves updated_at at least
created_at provided the wall clock has not gone backwards past created_at;
Records hydrated by decode are returned exactly as decoded and need not
satisfy the invariant. -/
theorem claim3_amended (t : Int) (o : Object) (now : Int) (d : Option Cid)
    (mv : Option Value) (hclock : o.created_at ≤ now) :
    (Object.default t t).created_at = (Object.default t t).updated_at ∧
    (o.update now d mv).created_at = o.created_at ∧
    (o.update now d mv).created_at ≤ (o.update now d mv).updated_at := by
  refine ⟨rfl, ?_, ?_⟩ <;> cases d <;> cases mv <;> simp [Object.update] <;> exact hclock

/-- C3 amended witness: the amended invariant instantiated at a concrete
clock value and record. -/
theorem claim3_amended_witness :
    (Object.mk 2 5 Cid.default Value.null).created_at ≤ 7 ∧
    ((Object.default 4 4).created_at = (Object.default 4 4).updated_at ∧
     ((Object.mk 2 5 Cid.default Value.null).update 7 (some Cid.default) none).created_at =
       (Object.mk 2 5 Cid.default Value.null).created_at ∧
     ((Object.mk 2 5 Cid.default Value.null).update 7 (some Cid.default) none).created_at ≤
       ((Object.mk 2 5 Cid.default Value.null).update 7 (some Cid.default) none).updated_at) :=
  ⟨by norm_num, claim3_amended 4 (Object.mk 2 5 Cid.default Value.null) 7
    (some Cid.default) none (by norm_num)⟩

/-! Theorems about the decoder's shape handling. -/

/-- C2 counterexample: a wire map carrying a fifth key besides the four
required ones decodes successfully, so decode does not reject every map with
an extra key. -/
theorem claim2_counterexample :
    mapGet
      [(OBJECT_CREATED_AT_LABEL, Ipld.integer 0),
       (OBJECT_UPDATED_AT_LABEL, Ipld.integer 0),
       (OBJECT_DATA_LABEL, Ipld.link Cid.default),
       (OBJECT_METADATA_LABEL, Ipld.string "null".toList),
       ("extra".toList, Ipld.integer 7)] "extra".toList = some (Ipld.integer 7) ∧
    "extra".toList ∉ [OBJECT_CREATED_AT_LABEL, OBJECT_UPDATED_AT_LABEL,
      OBJECT_DATA_LABEL, OBJECT_METADATA_LABEL] ∧
    Object.from_ipld (Ipld.map
      [(OBJECT_CREATED_AT_LABEL, Ipld.integer 0),
       (OBJECT_UPDATED_AT_LABEL, Ipld.integer 0),
       (OBJECT_DATA_LABEL, Ipld.link Cid.default),
       (OBJECT_METADATA_LABEL, Ipld.string "null".toList),
       ("extra".toList, Ipld.integer 7)]) =
      Except.ok (Object.mk 0 0 Cid.default Value.null) :=
  ⟨rfl, by decide, rfl⟩

/-- C2 amended: decode requires the four labelled entries to be present with
their exact wire types but ignores every other key: its outcome depends only
on the four labelled lookups, so adding entries at other keys never changes
the result and in particular never causes a rejection. -/
theorem claim2_amended (m m' : List (List Char × Ipld))
    (h1 : mapGet m OBJECT_CREATED_AT_LABEL = mapGet m' OBJECT_CREATED_AT_LABEL)
    (h2 : mapGet m OBJECT_UPDATED_AT_LABEL = mapGet m' OBJECT_UPDATED_AT_LABEL)
    (h3 : mapGet m OBJECT_DATA_LABEL = mapGet m' OBJECT_DATA_LABEL)
    (h4 : mapGet m OBJECT_METADATA_LABEL = mapGet m' OBJECT_METADATA_LABEL) :
    Object.from_ipld (Ipld.map m) = Object.from_ipld (Ipld.map m') := by
  simp only [Object.from_ipld]
  rw [h1, h2, h3, h4]

/-- C2 amended witness: adding an extra fifth key to a concrete valid map
leaves the decode result unchanged. -/
theorem claim2_amended_witness :
    Object.from_ipld (Ipld.map
      [(OBJECT_CREATED_AT_LABEL, Ipld.integer 0),
       (OBJECT_UPDATED_AT_LABEL, Ipld.integer 0),
       (OBJECT_DATA_LABEL, Ipld.link Cid.default),
       (OBJECT_METADATA_LABEL, Ipld.string "null".toList)]) =
    Object.from_ipld (Ipld.map
      [(OBJECT_CREATED_AT_LABEL, Ipld.integer 0),
       (OBJECT_UPDATED_AT_LABEL, Ipld.integer 0),
       (OBJECT_DATA_LABEL, Ipld.link Cid.default),
       (OBJECT_METADATA_LABEL, Ipld.string "null".toList),
       ("extra".toList, Ipld.integer 7)]) :=
  claim2_amended _ _ rfl rfl rfl rfl

/-- C4 counterexample: a map whose created_at integer is out of range and
whose updated_at key is absent fails with InvalidDateTime, not with
MissingOrWrongTypeField for the missing key, refuting the claimed
keys-before-ranges validation order. -/
theorem claim4_counterexample :
    Object.from_ipld (Ipld.map
      [(OBJECT_CREATED_AT_LABEL, Ipld.integer 253402300800000000000),
       (OBJECT_DATA_LABEL, Ipld.link Cid.default),
       (OBJECT_METADATA_LABEL, Ipld.string "null".toList)]) =
      Except.error ObjectIpldError.InvalidDateTime ∧
    mapGet
      [(OBJECT_CREATED_AT_LABEL, Ipld.integer 253402300800000000000),
       (OBJECT_DATA_LABEL, Ipld.link Cid.default),
       (OBJECT_METADATA_LABEL, Ipld.string "null".toList)]
      OBJECT_UPDATED_AT_LABEL = none ∧
    ObjectIpldError.InvalidDateTime ≠
      ObjectIpldError.MissingMapMember OBJECT_UPDATED_AT_LABEL :=
  ⟨rfl, rfl, by decide⟩

/-- C4 amended: decode fails fast with the first violation, but validates per
field rather than in the claimed phases: for each field in the order
created_at, updated_at, data, metadata it checks presence and wire type and,
for a timestamp field, at once the range, before looking at the next field;
so a missing or wrong-typed key is reported as MissingOrWrongTypeField for
that key only when every earlier field validates fully. -/
theorem claim4_amended_order (ipld : Ipld) :
    Object.from_ipld ipld = decodeOrderSpec ipld := by
  cases ipld
  case map m =>
    simp only [Object.from_ipld, decodeOrderSpec, specCheckTimestamp, specCheckLink,
      specCheckString, specParseMetadata]
    repeat' split
    all_goals first
    | rfl
    | simp_all [Except.bind, Except.map]
  all_goals rfl

/-- C5 counterexample: a map whose updated_at entry is wrong-typed (a
boolean) while created_at holds an out-of-range integer fails with
InvalidDateTime, not with MissingOrWrongTypeField naming the wrong-typed
key. -/
theorem claim5_counterexample :
    Object.from_ipld (Ipld.map
      [(OBJECT_CREATED_AT_LABEL, Ipld.integer (-377705116800000000001)),
       (OBJECT_UPDATED_AT_LABEL, Ipld.bool true),
       (OBJECT_DATA_LABEL, Ipld.link Cid.default),
       (OBJECT_METADATA_LABEL, Ipld.string "null".toList)]) =
      Except.error ObjectIpldError.InvalidDateTime ∧
    mapGet
      [(OBJECT_CREATED_AT_LABEL, Ipld.integer (-377705116800000000001)),
       (OBJECT_UPDATED_AT_LABEL, Ipld.bool true),
       (OBJECT_DATA_LABEL, Ipld.link Cid.default),
       (OBJECT_METADATA_LABEL, Ipld.string "null".toList)]
      OBJECT_UPDATED_AT_LABEL = some (Ipld.bool true) ∧
    (∀ j : Int, Ipld.bool true ≠ Ipld.integer j) ∧
    ObjectIpldError.InvalidDateTime ≠
      ObjectIpldError.MissingMapMember OBJECT_UPDATED_AT_LABEL :=
  ⟨rfl, rfl, fun _ h => Ipld.noConfusion h, by decide⟩

/-- C5 amended: decoding a non-map wire value fails with NotAMap; a map in
which any required key is absent or wrong-typed never decodes successfully
(a successful decode forces all four keys present with their exact wire
types); and when every field before it in the decoder's order validates
fully, a wrong-typed entry, such as the data entry holding a plain string
instead of a link, is reported as MissingOrWrongTypeField naming that key,
never silently coerced. -/
theorem claim5_amended :
    (∀ ipld : Ipld, (∀ m, ipld ≠ Ipld.map m) →
      Object.from_ipld ipld = Except.error ObjectIpldError.NotMap) ∧
    (∀ m o, Object.from_ipld (Ipld.map m) = Except.ok o →
      (∃ i, mapGet m OBJECT_CREATED_AT_LABEL = some (Ipld.integer i)) ∧
      (∃ i, mapGet m OBJECT_UPDATED_AT_LABEL = some (Ipld.integer i)) ∧
      (∃ c, mapGet m OBJECT_DATA_LABEL = some (Ipld.link c)) ∧
      (∃ s, mapGet m OBJECT_METADATA_LABEL = some (Ipld.string s))) ∧
    (∀ m ci ui s, mapGet m OBJECT_CREATED_AT_LABEL = some (Ipld.integer ci) →
      odtMinNanos ≤ ci → ci ≤ odtMaxNanos →
      mapGet m OBJECT_UPDATED_AT_LABEL = some (Ipld.integer ui) →
      odtMinNanos ≤ ui → ui ≤ odtMaxNanos →
      mapGet m OBJECT_DATA_LABEL = some (Ipld.string s) →
      Object.from_ipld (Ipld.map m) =
        Except.error (ObjectIpldError.MissingMapMember OBJECT_DATA_LABEL)) := by
  refine ⟨?_, ?_, ?_⟩
  · intro ipld h
    cases ipld <;> try rfl
    exact absurd rfl (h _)
  · intro m o h
    simp only [Object.from_ipld] at h
    rcases h1 : mapGet m OBJECT_CREATED_AT_LABEL with _ | v1
    · rw [h1] at h; simp at h
    · cases v1
      case integer ci =>
        rcases h2 : fromUnixTimestampNanos ci with _ | c
        · rw [h1] at h; simp [h2] at h
        · rcases h3 : mapGet m OBJECT_UPDATED_AT_LABEL with _ | v2
          · rw [h1] at h; simp [h2, h3] at h
          · cases v2
            case integer ui =>
              rcases h4 : fromUnixTimestampNanos ui with _ | u
              · rw [h1] at h; simp [h2, h3, h4] at h
              · rcases h5 : mapGet m OBJECT_DATA_LABEL with _ | v3
                · rw [h1] at h; simp [h2, h3, h4, h5] at h
                · cases v3
                  case link dc =>
                    rcases h6 : mapGet m OBJECT_METADATA_LABEL with _ | v4
                    · rw [h1] at h; simp [h2, h3, h4, h5, h6] at h
                    · cases v4
                      case string s => exact ⟨⟨ci, rfl⟩, ⟨ui, rfl⟩, ⟨dc, rfl⟩, ⟨s, rfl⟩⟩
                      all_goals rw [h1] at h; all_goals simp [h2, h3, h4, h5, h6] at h
                  all_goals rw [h1] at h; all_goals simp [h2, h3, h4, h5] at h
            all_goals rw [h1] at h; all_goals simp [h2, h3] at h
      all_goals rw [h1] at h; all_goals simp at h
  · intro m ci ui s h1 hlo1 hhi1 h2 hlo2 hhi2 h3
    have e1 : fromUnixTimestampNanos ci = some ci := by
      simp [fromUnixTimestampNanos, hlo1, hhi1]
    have e2 : fromUnixTimestampNanos ui = some ui := by
      simp [fromUnixTimestampNanos, hlo2, hhi2]
    simp only [Object.from_ipld]
    rw [h1]
    simp [e1, h2, e2, h3]

/-- C5 amended witness: the three parts of the amended claim instantiated at
concrete wire values. -/
theorem claim5_amended_witness :
    Object.from_ipld (Ipld.integer 3) = Except.error ObjectIpldError.NotMap ∧
    ((∃ i, mapGet
        [(OBJECT_CREATED_AT_LABEL, Ipld.integer 0),
         (OBJECT_UPDATED_AT_LABEL, Ipld.integer 0),
         (OBJECT_DATA_LABEL, Ipld.link Cid.default),
         (OBJECT_METADATA_LABEL, Ipld.string "null".toList)]
        OBJECT_CREATED_AT_LABEL = some (Ipld.integer i)) ∧
     (∃ i, mapGet
        [(OBJECT_CREATED_AT_LABEL, Ipld.integer 0),
         (OBJECT_UPDATED_AT_LABEL, Ipld.integer 0),
         (OBJECT_DATA_LABEL, Ipld.link Cid.default),
         (OBJECT_METADATA_LABEL, Ipld.string "null".toList)]
        OBJECT_UPDATED_AT_LABEL = some (Ipld.integer i)) ∧
     (∃ c, mapGet
        [(OBJECT_CREATED_AT_LABEL, Ipld.integer 0),
         (OBJECT_UPDATED_AT_LABEL, Ipld.integer 0),
         (OBJECT_DATA_LABEL, Ipld.link Cid.default),
         (OBJECT_METADATA_LABEL, Ipld.string "null".toList)]
        OBJECT_DATA_LABEL = some (Ipld.link c)) ∧
     (∃ s, mapGet
        [(OBJECT_CREATED_AT_LABEL, Ipld.integer 0),
         (OBJECT_UPDATED_AT_LABEL, Ipld.integer 0),
         (OBJECT_DATA_LABEL, Ipld.link Cid.default),
         (OBJECT_METADATA_LABEL, Ipld.string "null".toList)]
        OBJECT_METADATA_LABEL = some (Ipld.string s))) ∧
    Object.from_ipld (Ipld.map
      [(OBJECT_CREATED_AT_LABEL, Ipld.integer 0),
       (OBJECT_UPDATED_AT_LABEL, Ipld.integer 0),
       (OBJECT_DATA_LABEL, Ipld.string "not a link".toList),
       (OBJECT_METADATA_LABEL, Ipld.string "null".toList)]) =
      Except.error (ObjectIpldError.MissingMapMember OBJECT_DATA_LABEL) :=
  ⟨claim5_amended.1 (Ipld.integer 3) (fun _ h => Ipld.noConfusion h),
   claim5_amended.2.1
     [(OBJECT_CREATED_AT_LABEL, Ipld.integer 0),
      (OBJECT_UPDATED_AT_LABEL, Ipld.integer 0),
      (OBJECT_DATA_LABEL, Ipld.link Cid.default),
      (OBJECT_METADATA_LABEL, Ipld.string "null".toList)]
     (Object.mk 0 0 Cid.default Value.null) rfl,
   claim5_amended.2.2
     [(OBJECT_CREATED_AT_LABEL, Ipld.integer 0),
      (OBJECT_UPDATED_AT_LABEL, Ipld.integer 0),
      (OBJECT_DATA_LABEL, Ipld.string "not a link".toList),
      (OBJECT_METADATA_LABEL, Ipld.string "null".toList)]
     0 0 "not a link".toList rfl (by decide) (by decide) rfl (by decide) (by decide) rfl⟩

/-- C7: for every wire map holding the four required keys with their exact
wire types, if either timestamp integer lies outside the representable
nanosecond range of OffsetDateTime, decode fails with InvalidDateTime. -/
theorem claim7_out_of_range_timestamp (m : List (List Char × Ipld)) (ci ui : Int)
    (dc : Cid) (s : List Char)
    (h1 : mapGet m OBJECT_CREATED_AT_LABEL = some (Ipld.integer ci))
    (h2 : mapGet m OBJECT_UPDATED_AT_LABEL = some (Ipld.integer ui))
    (h3 : mapGet m OBJECT_DATA_LABEL = some (Ipld.link dc))
    (h4 : mapGet m OBJECT_METADATA_LABEL = some (Ipld.string s))
    (hout : ¬(odtMinNanos ≤ ci ∧ ci ≤ odtMaxNanos) ∨
            ¬(odtMinNanos ≤ ui ∧ ui ≤ odtMaxNanos)) :
    Object.from_ipld (Ipld.map m) = Except.error ObjectIpldError.InvalidDateTime := by
  simp only [Object.from_ipld]
  rw [h1]
  by_cases hci : odtMinNanos ≤ ci ∧ ci ≤ odtMaxNanos
  · have e1 : fromUnixTimestampNanos ci = some ci := by
      simp [fromUnixTimestampNanos, hci.1, hci.2]
    have hui : ¬(odtMinNanos ≤ ui ∧ ui ≤ odtMaxNanos) := by
      rcases hout with h | h
      · exact absurd hci h
      · exact h
    have e2 : fromUnixTimestampNanos ui = none := by
      simp only [fromUnixTimestampNanos, if_neg hui]
    simp [e1, h2, e2]
  · have e1 : fromUnixTimestampNanos ci = none := by
      simp only [fromUnixTimestampNanos, if_neg hci]
    simp [e1]

/-- C7 witness: the rejection instantiated at a concrete map whose
updated_at integer is one past the largest representable timestamp. -/
theorem claim7_out_of_range_timestamp_witness :
    (¬(odtMinNanos ≤ (253402300800000000000 : Int) ∧
       (253402300800000000000 : Int) ≤ odtMaxNanos) ∨
     ¬(odtMinNanos ≤ (0 : Int) ∧ (0 : Int) ≤ odtMaxNanos)) ∧
    Object.from_ipld (Ipld.map
      [(OBJECT_CREATED_AT_LABEL, Ipld.integer 0),
       (OBJECT_UPDATED_AT_LABEL, Ipld.integer 253402300800000000000),
       (OBJECT_DATA_LABEL, Ipld.link Cid.default),
       (OBJECT_METADATA_LABEL, Ipld.string "null".toList)]) =
      Except.error ObjectIpldError.InvalidDateTime :=
  ⟨Or.inl (by decide),
   claim7_out_of_range_timestamp
     [(OBJECT_CREATED_AT_LABEL, Ipld.integer 0),
      (OBJECT_UPDATED_AT_LABEL, Ipld.integer 253402300800000000000),
      (OBJECT_DATA_LABEL, Ipld.link Cid.default),
      (OBJECT_METADATA_LABEL, Ipld.string "null".toList)]
     0 253402300800000000000 Cid.default "null".toList rfl rfl rfl rfl
     (Or.inr (by decide))⟩

/-- C8: for every otherwise well-shaped wire map, a metadata string that is
not parseable JSON text, such as the nine characters of an unterminated
brace, fails decode with the malformed-metadata error (the SerdeJson variant
of the source), while the strings of an empty object and of the null literal
succeed and decode to the empty object and the null value. -/
theorem claim8_metadata_parse (m : List (List Char × Ipld)) (ci ui : Int) (dc : Cid)
    (h1 : mapGet m OBJECT_CREATED_AT_LABEL = some (Ipld.integer ci))
    (hlo1 : odtMinNanos ≤ ci) (hhi1 : ci ≤ odtMaxNanos)
    (h2 : mapGet m OBJECT_UPDATED_AT_LABEL = some (Ipld.integer ui))
    (hlo2 : odtMinNanos ≤ ui) (hhi2 : ui ≤ odtMaxNanos)
    (h3 : mapGet m OBJECT_DATA_LABEL = some (Ipld.link dc)) :
    (mapGet m OBJECT_METADATA_LABEL = some (Ipld.string "\x7bnot json".toList) →
      Object.from_ipld (Ipld.map m) = Except.error ObjectIpldError.SerdeJson) ∧
    (mapGet m OBJECT_METADATA_LABEL = some (Ipld.string "\x7b\x7d".toList) →
      Object.from_ipld (Ipld.map m) = Except.ok (Object.mk ci ui dc (Value.obj []))) ∧
    (mapGet m OBJECT_METADATA_LABEL = some (Ipld.string "null".toList) →
      Object.from_ipld (Ipld.map m) = Except.ok (Object.mk ci ui dc Value.null)) := by
  have e1 : fromUnixTimestampNanos ci = some ci := by
    simp [fromUnixTimestampNanos, hlo1, hhi1]
  have e2 : fromUnixTimestampNanos ui = some ui := by
    simp [fromUnixTimestampNanos, hlo2, hhi2]
  refine ⟨?_, ?_, ?_⟩ <;> intro h4 <;> simp only [Object.from_ipld] <;> rw [h1] <;>
    simp only [e1, h2, e2, h3, h4] <;> rfl

/-- C8 witness: the three metadata behaviors at concrete wire maps. -/
theorem claim8_metadata_parse_witness :
    Object.from_ipld (Ipld.map
      [(OBJECT_CREATED_AT_LABEL, Ipld.integer 0),
       (OBJECT_UPDATED_AT_LABEL, Ipld.integer 0),
       (OBJECT_DATA_LABEL, Ipld.link Cid.default),
       (OBJECT_METADATA_LABEL, Ipld.string "\x7bnot json".toList)]) =
      Except.error ObjectIpldError.SerdeJson ∧
    Object.from_ipld (Ipld.map
      [(OBJECT_CREATED_AT_LABEL, Ipld.integer 0),
       (OBJECT_UPDATED_AT_LABEL, Ipld.integer 0),
       (OBJECT_DATA_LABEL, Ipld.link Cid.default),
       (OBJECT_METADATA_LABEL, Ipld.string "\x7b\x7d".toList)]) =
      Except.ok (Object.mk 0 0 Cid.default (Value.obj [])) ∧
    Object.from_ipld (Ipld.map
      [(OBJECT_CREATED_AT_LABEL, Ipld.integer 0),
       (OBJECT_UPDATED_AT_LABEL, Ipld.integer 0),
       (OBJECT_DATA_LABEL, Ipld.link Cid.default),
       (OBJECT_METADATA_LABEL, Ipld.string "null".toList)]) =
      Except.ok (Object.mk 0 0 Cid.default Value.null) :=
  ⟨(claim8_metadata_parse
      [(OBJECT_CREATED_AT_LABEL, Ipld.integer 0),
       (OBJECT_UPDATED_AT_LABEL, Ipld.integer 0),
       (OBJECT_DATA_LABEL, Ipld.link Cid.default),
       (OBJECT_METADATA_LABEL, Ipld.string "\x7bnot json".toList)]
      0 0 Cid.default rfl (by decide) (by decide) rfl (by decide) (by decide) rfl).1 rfl,
   (claim8_metadata_parse
      [(OBJECT_CREATED_AT_LABEL, Ipld.integer 0),
       (OBJECT_UPDATED_AT_LABEL, Ipld.integer 0),
       (OBJECT_DATA_LABEL, Ipld.link Cid.default),
       (OBJECT_METADATA_LABEL, Ipld.string "\x7b\x7d".toList)]
      0 0 Cid.default rfl (by decide) (by decide) rfl (by decide) (by decide) rfl).2.1 rfl,
   (claim8_metadata_parse
      [(OBJECT_CREATED_AT_LABEL, Ipld.integer 0),
       (OBJECT_UPDATED_AT_LABEL, Ipld.integer 0),
       (OBJECT_DATA_LABEL, Ipld.link Cid.default),
       (OBJECT_METADATA_LABEL, Ipld.string "null".toList)]
      0 0 Cid.default rfl (by decide) (by decide) rfl (by decide) (by decide) rfl).2.2 rfl⟩

/-- C10: encoding after decoding is not the identity on wire maps: the wire
map that differs from the canonical encoding of a Record only by a leading
space in its metadata string decodes to that same Record, so two distinct
wire maps decode to equal Records and re-encoding the decoded Record yields
the canonical map, not the original. -/
theorem claim10_decode_not_injective :
    Object.from_ipld (Object.to_ipld (Object.mk 0 0 Cid.default Value.null)) =
      Except.ok (Object.mk 0 0 Cid.default Value.null) ∧
    Object.from_ipld (Ipld.map
      [(OBJECT_CREATED_AT_LABEL, Ipld.integer 0),
       (OBJECT_DATA_LABEL, Ipld.link Cid.default),
       (OBJECT_METADATA_LABEL, Ipld.string (' ' :: "null".toList)),
       (OBJECT_UPDATED_AT_LABEL, Ipld.integer 0)]) =
      Except.ok (Object.mk 0 0 Cid.default Value.null) ∧
    Object.to_ipld (Object.mk 0 0 Cid.default Value.null) ≠ Ipld.map
      [(OBJECT_CREATED_AT_LABEL, Ipld.integer 0),
       (OBJECT_DATA_LABEL, Ipld.link Cid.default),
       (OBJECT_METADATA_LABEL, Ipld.string (' ' :: "null".toList)),
       (OBJECT_UPDATED_AT_LABEL, Ipld.integer 0)] := by
  refine ⟨rfl, rfl, ?_⟩
  intro h
  injection h with hl
  injection hl with _ hl2
  injection hl2 with _ hl3
  injection hl3 with hp _
  injection hp with _ hs
  injection hs with hstr
  have hlen := congrArg List.length hstr
  simp [Object.to_ipld, printValue] at hlen

/-! Helper lemmas for the JSON print and parse round trip behind the C1
round-trip theorem. -/

theorem skipWs_not_ws (c : Char) (l : List Char) (h : isWsChar c = false) :
    skipWs (c :: l) = c :: l := by
  simp [skipWs, h]

theorem digitChar_is_digit (d : Nat) : isDigitChar (digitChar d) = true := by
  rcases d with _ | _ | _ | _ | _ | _ | _ | _ | _ | d <;> rfl

theorem digitVal_digitChar (d : Nat) (h : d < 10) : digitVal (digitChar d) = d := by
  revert h
  revert d
  decide

theorem digit_ne (c x : Char) (h : isDigitChar c = true) (hx : isDigitChar x = false) :
    c ≠ x := by
  rintro rfl
  rw [h] at hx
  exact Bool.noConfusion hx

theorem digit_not_ws (c : Char) (h : isDigitChar c = true) : isWsChar c = false := by
  rcases hw : isWsChar c with _ | _
  · rfl
  · simp only [isWsChar, Bool.or_eq_true, decide_eq_true_eq] at hw
    rcases hw with ((rfl | rfl) | rfl) | rfl <;> revert h <;> decide

theorem natDigits_ne_nil (n : Nat) : natDigits n ≠ [] := by
  rw [natDigits]
  split
  · simp
  · simp

theorem natDigits_all_digits (n : Nat) : ∀ c ∈ natDigits n, isDigitChar c = true := by
  induction n using Nat.strong_induction_on with
  | _ n ih =>
    rw [natDigits]
    split
    · intro c hc
      simp only [List.mem_singleton] at hc
      subst hc
      exact digitChar_is_digit _
    · intro c hc
      rcases List.mem_append.mp hc with h | h
      · exact ih (n / 10) (Nat.div_lt_self (by omega) (by omega)) c h
      · simp only [List.mem_singleton] at h
        subst h
        exact digitChar_is_digit _

theorem natDigits_foldl (n : Nat) : ∀ acc : Nat,
    (natDigits n).foldl (fun acc c => acc * 10 + digitVal c) acc =
      acc * 10 ^ (natDigits n).length + n := by
  induction n using Nat.strong_induction_on with
  | _ n ih =>
    intro acc
    rw [natDigits]
    split
    · rename_i h
      simp [List.foldl, digitVal_digitChar n h]
    · rename_i h
      have hd : n / 10 < n := Nat.div_lt_self (by omega) (by omega)
      rw [List.foldl_append, ih (n / 10) hd acc]
      simp only [List.foldl, List.length_append, List.length_cons, List.length_nil]
      rw [digitVal_digitChar (n % 10) (by omega)]
      rw [pow_succ]
      generalize (10 : Nat) ^ (natDigits (n / 10)).length = A
      ring_nf
      omega

theorem digitsToNat_natDigits (n : Nat) : digitsToNat (natDigits n) = n := by
  have h := natDigits_foldl n 0
  simpa [digitsToNat] using h

theorem takeWhile_append_all (p : Char → Bool) (l rest : List Char)
    (hall : ∀ c ∈ l, p c = true)
    (hrest : ∀ c, rest.head? = some c → p c = false) :
    (l ++ rest).takeWhile p = l ∧ (l ++ rest).dropWhile p = rest := by
  induction l with
  | nil =>
    simp only [List.nil_append]
    cases rest with
    | nil => simp
    | cons r rs =>
      have hr := hrest r rfl
      simp [List.takeWhile, List.dropWhile, hr]
  | cons c cs ih =>
    have hc := hall c (by simp)
    have ih2 := ih (fun x hx => hall x (by simp [hx]))
    simp [List.takeWhile, List.dropWhile, hc, ih2.1, ih2.2]

theorem parseNumber_print (n : Int) (rest : List Char)
    (hrest : ∀ c, rest.head? = some c → isDigitChar c = false) :
    parseNumber (intChars n ++ rest) = some (n, rest) := by
  rw [intChars]
  split
  · rename_i hneg
    have htw := takeWhile_append_all isDigitChar (natDigits n.natAbs) rest
      (natDigits_all_digits _) hrest
    have hne := natDigits_ne_nil n.natAbs
    rw [List.cons_append, parseNumber, if_pos (by rfl)]
    simp only [List.tail_cons, parseDigits]
    rw [htw.1, htw.2, if_neg hne, digitsToNat_natDigits]
    have heq : -((n.natAbs : Nat) : Int) = n := by omega
    simp only [Option.map_some', heq]
  · rename_i hneg
    have htw := takeWhile_append_all isDigitChar (natDigits n.toNat) rest
      (natDigits_all_digits _) hrest
    have hne := natDigits_ne_nil n.toNat
    rcases hnd : natDigits n.toNat with _ | ⟨c, t⟩
    · exact absurd hnd hne
    · have hcdig : isDigitChar c = true := by
        have := natDigits_all_digits n.toNat c (by rw [hnd]; simp)
        exact this
      have hcm : c ≠ '-' := digit_ne c '-' hcdig (by decide)
      rw [hnd] at htw
      simp only [List.cons_append] at htw ⊢
      rw [parseNumber, if_neg (by simp [hcm])]
      simp only [parseDigits]
      rw [htw.1, htw.2]
      rw [if_neg (by simp)]
      rw [← hnd, digitsToNat_natDigits]
      have heq : ((n.toNat : Nat) : Int) = n := by omega
      simp only [Option.map_some', heq]

theorem hexVal_hexDigitChar (k : Nat) (h : k < 16) : hexVal (hexDigitChar k) = some k := by
  revert k
  decide

theorem parseStringBody_escape (s rest : List Char) :
    parseStringBody (escapeList s ++ '\x22' :: rest) = some (s, rest) := by
  induction s generalizing rest with
  | nil =>
    show parseStringBody ('\x22' :: rest) = some ([], rest)
    rw [parseStringBody.eq_def]
    simp
  | cons c cs ih =>
    show parseStringBody ((escapeChar c ++ escapeList cs) ++ '\x22' :: rest) = _
    rw [List.append_assoc, escapeChar]
    by_cases h1 : c = '\x22'
    · subst h1; rw [if_pos rfl]; rw [parseStringBody.eq_def]; simp [ih]
    · rw [if_neg h1]
      by_cases h2 : c = '\x5c'
      · subst h2; rw [if_pos rfl]; rw [parseStringBody.eq_def]; simp [ih]
      · rw [if_neg h2]
        by_cases h3 : c = '\x08'
        · subst h3; rw [if_pos rfl]; rw [parseStringBody.eq_def]; simp [ih]
        · rw [if_neg h3]
          by_cases h4 : c = '\x09'
          · subst h4; rw [if_pos rfl]; rw [parseStringBody.eq_def]; simp [ih]
          · rw [if_neg h4]
            by_cases h5 : c = '\x0a'
            · subst h5; rw [if_pos rfl]; rw [parseStringBody.eq_def]; simp [ih]
            · rw [if_neg h5]
              by_cases h6 : c = '\x0c'
              · subst h6; rw [if_pos rfl]; rw [parseStringBody.eq_def]; simp [ih]
              · rw [if_neg h6]
                by_cases h7 : c = '\x0d'
                · subst h7; rw [if_pos rfl]; rw [parseStringBody.eq_def]; simp [ih]
                · rw [if_neg h7]
                  by_cases h8 : c.toNat < 32
                  · rw [if_pos h8]
                    have e0 : hexVal '0' = some 0 := by decide
                    have eh : hexVal (hexDigitChar (c.toNat / 16)) = some (c.toNat / 16) :=
                      hexVal_hexDigitChar _ (by omega)
                    have el : hexVal (hexDigitChar (c.toNat % 16)) = some (c.toNat % 16) :=
                      hexVal_hexDigitChar _ (by omega)
                    have hc : Char.ofNat (hex4 0 0 (c.toNat / 16) (c.toNat % 16)) = c := by
                      have harg : hex4 0 0 (c.toNat / 16) (c.toNat % 16) = c.toNat := by
                        rw [hex4]; omega
                      rw [harg, Char.ofNat_toNat]
                    rw [parseStringBody.eq_def]
                    simp [e0, eh, el, hc, ih]
                  · rw [if_neg h8]
                    rw [parseStringBody.eq_def]
                    simp [h1, h2, ih]

theorem intChars_head (n : Int) :
    ∃ c t, intChars n = c :: t ∧ (isDigitChar c = true ∨ c = '-') := by
  rw [intChars]
  split
  · exact ⟨'-', _, rfl, Or.inr rfl⟩
  · rcases hnd : natDigits n.toNat with _ | ⟨c, t⟩
    · exact absurd hnd (natDigits_ne_nil _)
    · have hc : isDigitChar c = true := natDigits_all_digits n.toNat c (by rw [hnd]; simp)
      exact ⟨c, t, rfl, Or.inl hc⟩

theorem printValue_cons (v : Value) :
    ∃ c t, printValue v = c :: t ∧ isWsChar c = false ∧ c ≠ ']' ∧ c ≠ '\x7d' := by
  cases v with
  | null => exact ⟨'n', _, rfl, by decide, by decide, by decide⟩
  | bool b =>
    cases b
    · exact ⟨'f', _, rfl, by decide, by decide, by decide⟩
    · exact ⟨'t', _, rfl, by decide, by decide, by decide⟩
  | num n =>
    rcases intChars_head n with ⟨c, t, hct, hdig | rfl⟩
    · exact ⟨c, t, by rw [printValue, hct], digit_not_ws c hdig,
        digit_ne c ']' hdig (by decide), digit_ne c '\x7d' hdig (by decide)⟩
    · exact ⟨'-', t, by rw [printValue, hct], by decide, by decide, by decide⟩
  | str s => exact ⟨'\x22', _, rfl, by decide, by decide, by decide⟩
  | arr l =>
    cases l
    · exact ⟨'[', _, rfl, by decide, by decide, by decide⟩
    · exact ⟨'[', _, rfl, by decide, by decide, by decide⟩
  | obj l =>
    cases l
    · exact ⟨'\x7b', _, rfl, by decide, by decide, by decide⟩
    · exact ⟨'\x7b', _, rfl, by decide, by decide, by decide⟩

theorem sizeV_pos (v : Value) : 1 ≤ sizeV v := by
  cases v with
  | null | bool _ | num _ | str _ => simp [sizeV]
  | arr l => cases l <;> (simp [sizeV]; try omega)
  | obj l =>
    rcases l with _ | ⟨⟨k1, v1⟩, ms⟩ <;> (simp [sizeV]; try omega)

theorem sizeElems_pos (v : Value) (vs : List Value) : 1 ≤ sizeElems v vs := by
  cases vs <;> (simp [sizeElems]; try omega)

theorem sizeMembers_pos (mb : List Char × Value) (ms : List (List Char × Value)) :
    1 ≤ sizeMembers mb ms := by
  rcases mb with ⟨k1, v1⟩
  cases ms <;> (simp [sizeMembers]; try omega)

theorem head_not_digit_cons (x : Char) (hx : isDigitChar x = false) (l : List Char) :
    ∀ c, (x :: l).head? = some c → isDigitChar c = false := by
  intro c hc
  simp only [List.head?_cons, Option.some.injEq] at hc
  subst hc
  exact hx

theorem parse_print_k (k : Nat) :
    (∀ v fuel (rest : List Char), sizeV v ≤ k → sizeV v ≤ fuel →
      (∀ c, rest.head? = some c → isDigitChar c = false) →
      parseValue fuel (printValue v ++ rest) = some (v, rest)) ∧
    (∀ v vs fuel (rest : List Char), sizeElems v vs ≤ k → sizeElems v vs ≤ fuel →
      parseElems fuel (printValue v ++ (printElems vs ++ (']' :: rest))) =
        some (v :: vs, rest)) ∧
    (∀ mb ms fuel (rest : List Char), sizeMembers mb ms ≤ k → sizeMembers mb ms ≤ fuel →
      parseMembers fuel (printMember mb ++ (printMembers ms ++ ('\x7d' :: rest))) =
        some (mb :: ms, rest)) := by
  induction k with
  | zero =>
    refine ⟨?_, ?_, ?_⟩
    · intro v fuel rest hk _ _
      have := sizeV_pos v
      omega
    · intro v vs fuel rest hk _
      have := sizeElems_pos v vs
      omega
    · intro mb ms fuel rest hk _
      have := sizeMembers_pos mb ms
      omega
  | succ k ih =>
    obtain ⟨ihV, ihE, ihM⟩ := ih
    refine ⟨?_, ?_, ?_⟩
    · intro v fuel rest hk hf hrest
      rcases fuel with _ | f
      · have := sizeV_pos v
        omega
      · cases v with
        | null => simp [printValue, parseValue, skipWs, isWsChar]
        | bool b => cases b <;> simp [printValue, parseValue, skipWs, isWsChar]
        | num n =>
          rcases intChars_head n with ⟨c, t, hct, hprop⟩
          rw [show printValue (Value.num n) = intChars n from rfl, hct, List.cons_append]
          have hback : c :: (t ++ rest) = intChars n ++ rest := by
            rw [hct, List.cons_append]
          rcases hprop with hdig | rfl
          · have hws := digit_not_ws c hdig
            have e1 := digit_ne c 'n' hdig (by decide)
            have e2 := digit_ne c 't' hdig (by decide)
            have e3 := digit_ne c 'f' hdig (by decide)
            have e4 := digit_ne c '\x22' hdig (by decide)
            have e5 := digit_ne c '[' hdig (by decide)
            have e6 := digit_ne c '\x7b' hdig (by decide)
            simp [parseValue, skipWs_not_ws c (t ++ rest) hws, e1, e2, e3, e4, e5, e6, hdig]
            rw [hback, parseNumber_print n rest hrest]
          · simp [parseValue, skipWs_not_ws '-' (t ++ rest) (by decide)]
            rw [hback, parseNumber_print n rest hrest]
        | str s =>
          rw [printValue, List.cons_append]
          simp [parseValue, skipWs, isWsChar, parseStringBody_escape]
        | arr l =>
          cases l with
          | nil => simp [printValue, parseValue, skipWs, isWsChar]
          | cons v vs =>
            have hs : sizeV (Value.arr (v :: vs)) = 1 + sizeElems v vs := by simp [sizeV]
            rcases printValue_cons v with ⟨c, t, hct, hws, hrb, _⟩
            rw [printValue, List.cons_append]
            simp only [List.append_assoc, List.cons_append, List.singleton_append]
            rw [hct, List.cons_append]
            simp [parseValue, skipWs, hws, hrb, show isWsChar '[' = false from by decide]
            rw [← List.cons_append, ← hct, ihE v vs f rest (by omega) (by omega)]
        | obj l =>
          cases l with
          | nil => simp [printValue, parseValue, skipWs, isWsChar]
          | cons mb ms =>
            have hs : sizeV (Value.obj (mb :: ms)) = 1 + sizeMembers mb ms := by simp [sizeV]
            rcases mb with ⟨k1, v1⟩
            have hstep := ihM (k1, v1) ms f rest (by omega) (by omega)
            rw [printValue, List.cons_append]
            rw [show printMember (k1, v1) =
              '\x22' :: (escapeList k1 ++ '\x22' :: ':' :: printValue v1) from rfl] at hstep ⊢
            simp only [List.append_assoc, List.cons_append] at hstep ⊢
            simp [parseValue, skipWs, show isWsChar '\x7b' = false from by decide,
              show isWsChar '\x22' = false from by decide]
            rw [hstep]
    · intro v vs fuel rest hk hf
      rcases fuel with _ | f
      · have := sizeElems_pos v vs
        omega
      · cases vs with
        | nil =>
          have hs : sizeElems v [] = 1 + sizeV v := by simp [sizeElems]
          simp only [printElems, List.nil_append]
          rw [parseElems, ihV v f (']' :: rest) (by omega) (by omega)
            (head_not_digit_cons ']' (by decide) rest)]
          simp [skipWs, isWsChar]
        | cons v2 vs2 =>
          have hs : sizeElems v (v2 :: vs2) = 1 + sizeV v + sizeElems v2 vs2 := by
            simp [sizeElems]
          have h2 := sizeElems_pos v2 vs2
          simp only [printElems, List.cons_append, List.append_assoc]
          rw [parseElems, ihV v f
            (',' :: (printValue v2 ++ (printElems vs2 ++ (']' :: rest))))
            (by omega) (by omega) (head_not_digit_cons ',' (by decide) _)]
          simp [skipWs, show isWsChar ',' = false from by decide]
          rw [ihE v2 vs2 f rest (by omega) (by omega)]
    · intro mb ms fuel rest hk hf
      rcases fuel with _ | f
      · have := sizeMembers_pos mb ms
        omega
      · rcases mb with ⟨k1, v1⟩
        cases ms with
        | nil =>
          have hs : sizeMembers (k1, v1) [] = 1 + sizeV v1 := by simp [sizeMembers]
          simp only [printMembers, List.nil_append]
          rw [show printMember (k1, v1) =
            '\x22' :: (escapeList k1 ++ '\x22' :: ':' :: printValue v1) from rfl]
          simp only [List.cons_append, List.append_assoc]
          rw [parseMembers]
          simp [skipWs, show isWsChar '\x22' = false from by decide,
            show isWsChar ':' = false from by decide,
            show isWsChar '\x7d' = false from by decide, parseStringBody_escape,
            ihV v1 f ('\x7d' :: rest) (by omega) (by omega)
              (head_not_digit_cons '\x7d' (by decide) rest)]
        | cons m2 ms2 =>
          have hs : sizeMembers (k1, v1) (m2 :: ms2) = 1 + sizeV v1 + sizeMembers m2 ms2 := by
            simp [sizeMembers]
          have h2 := sizeMembers_pos m2 ms2
          simp only [printMembers, List.cons_append, List.append_assoc]
          rw [show printMember (k1, v1) =
            '\x22' :: (escapeList k1 ++ '\x22' :: ':' :: printValue v1) from rfl]
          simp only [List.cons_append, List.append_assoc]
          rw [parseMembers]
          simp [skipWs, show isWsChar '\x22' = false from by decide,
            show isWsChar ':' = false from by decide,
            show isWsChar ',' = false from by decide, parseStringBody_escape,
            ihV v1 f (',' :: (printMember m2 ++ (printMembers ms2 ++ ('\x7d' :: rest))))
              (by omega) (by omega) (head_not_digit_cons ',' (by decide) _)]
          rw [ihM m2 ms2 f rest (by omega) (by omega)]

theorem size_le_print_k (k : Nat) :
    (∀ v, sizeV v ≤ k → sizeV v ≤ (printValue v).length) ∧
    (∀ v vs, sizeElems v vs ≤ k →
      sizeElems v vs ≤ (printValue v ++ printElems vs).length + 1) ∧
    (∀ mb ms, sizeMembers mb ms ≤ k →
      sizeMembers mb ms ≤ (printMember mb ++ printMembers ms).length + 1) := by
  induction k with
  | zero =>
    refine ⟨?_, ?_, ?_⟩
    · intro v hk
      have := sizeV_pos v
      omega
    · intro v vs hk
      have := sizeElems_pos v vs
      omega
    · intro mb ms hk
      have := sizeMembers_pos mb ms
      omega
  | succ k ih =>
    obtain ⟨ihV, ihE, ihM⟩ := ih
    refine ⟨?_, ?_, ?_⟩
    · intro v hk
      cases v with
      | null => simp [printValue, sizeV]
      | bool b => cases b <;> simp [printValue, sizeV]
      | num n =>
        rcases intChars_head n with ⟨c, t, hct, _⟩
        rw [show printValue (Value.num n) = intChars n from rfl, hct]
        simp [sizeV]
      | str s => simp [printValue, sizeV]
      | arr l =>
        cases l with
        | nil => simp [printValue, sizeV]
        | cons v vs =>
          have hs : sizeV (Value.arr (v :: vs)) = 1 + sizeElems v vs := by simp [sizeV]
          have hb := ihE v vs (by omega)
          simp only [List.length_append] at hb
          simp only [hs, printValue, List.length_cons, List.length_append, List.length_nil]
          omega
      | obj l =>
        cases l with
        | nil => simp [printValue, sizeV]
        | cons mb ms =>
          have hs : sizeV (Value.obj (mb :: ms)) = 1 + sizeMembers mb ms := by simp [sizeV]
          have hb := ihM mb ms (by omega)
          simp only [List.length_append] at hb
          simp only [hs, printValue, List.length_cons, List.length_append, List.length_nil]
          omega
    · intro v vs hk
      cases vs with
      | nil =>
        have hs : sizeElems v [] = 1 + sizeV v := by simp [sizeElems]
        have hb := ihV v (by omega)
        simp only [hs, printElems, List.append_nil]
        omega
      | cons v2 vs2 =>
        have hs : sizeElems v (v2 :: vs2) = 1 + sizeV v + sizeElems v2 vs2 := by
          simp [sizeElems]
        have h2 := sizeElems_pos v2 vs2
        have hb := ihV v (by omega)
        have hb2 := ihE v2 vs2 (by omega)
        simp only [List.length_append] at hb2
        simp only [hs, printElems, List.length_append, List.length_cons]
        omega
    · intro mb ms hk
      rcases mb with ⟨k1, v1⟩
      have hm : (printMember (k1, v1)).length = (escapeList k1).length + 3 + (printValue v1).length := by
        simp [printMember]
        omega
      cases ms with
      | nil =>
        have hs : sizeMembers (k1, v1) [] = 1 + sizeV v1 := by simp [sizeMembers]
        have hb := ihV v1 (by omega)
        simp only [hs, printMembers, List.append_nil, hm]
        omega
      | cons m2 ms2 =>
        have hs : sizeMembers (k1, v1) (m2 :: ms2) = 1 + sizeV v1 + sizeMembers m2 ms2 := by
          simp [sizeMembers]
        have h2 := sizeMembers_pos m2 ms2
        have hb := ihV v1 (by omega)
        have hb2 := ihM m2 ms2 (by omega)
        simp only [List.length_append] at hb2
        simp only [hs, printMembers, List.length_append, List.length_cons, hm]
        omega

theorem from_str_print (v : Value) : from_str (printValue v) = some v := by
  have hsz : sizeV v ≤ (printValue v).length := (size_le_print_k (sizeV v)).1 v le_rfl
  have h := (parse_print_k (sizeV v)).1 v ((printValue v).length + 1) [] le_rfl (by omega)
    (by intro c hc; simp at hc)
  rw [List.append_nil] at h
  rw [from_str, h]
  rfl

/-! The round-trip theorem for C1. -/

/-- C1: decoding the wire map produced by encoding any valid Record yields
that same Record, all four fields equal; validity asks only that the two
timestamps are representable datetimes, which every OffsetDateTime value
guarantees by construction. -/
theorem claim1_roundtrip (r : Object) (h : r.valid) :
    Object.from_ipld (Object.to_ipld r) = Except.ok r := by
  obtain ⟨h1, h2, h3, h4⟩ := h
  have e1 : fromUnixTimestampNanos r.created_at = some r.created_at := by
    simp [fromUnixTimestampNanos, h1, h2]
  have e2 : fromUnixTimestampNanos r.updated_at = some r.updated_at := by
    simp [fromUnixTimestampNanos, h3, h4]
  have ne1 : OBJECT_CREATED_AT_LABEL ≠ OBJECT_UPDATED_AT_LABEL := by decide
  have ne2 : OBJECT_DATA_LABEL ≠ OBJECT_UPDATED_AT_LABEL := by decide
  have ne3 : OBJECT_METADATA_LABEL ≠ OBJECT_UPDATED_AT_LABEL := by decide
  have ne4 : OBJECT_CREATED_AT_LABEL ≠ OBJECT_DATA_LABEL := by decide
  have ne5 : OBJECT_CREATED_AT_LABEL ≠ OBJECT_METADATA_LABEL := by decide
  have ne6 : OBJECT_DATA_LABEL ≠ OBJECT_METADATA_LABEL := by decide
  simp [Object.to_ipld, Object.from_ipld, mapGet, ne1, ne2, ne3, ne4, ne5, ne6,
    e1, e2, from_str_print]

/-- C1 witness: the round trip at a concrete valid Record. -/
theorem claim1_roundtrip_witness :
    (Object.mk 0 0 Cid.default Value.null).valid ∧
    Object.from_ipld (Object.to_ipld (Object.mk 0 0 Cid.default Value.null)) =
      Except.ok (Object.mk 0 0 Cid.default Value.null) :=
  ⟨by constructor <;> decide, claim1_roundtrip (Object.mk 0 0 Cid.default Value.null)
    (by constructor <;> decide)⟩

end DumbStore
